import Mathlib

/-!
Verification development for the pm-tracker repository: a shallow embedding of
the market lifecycle engine (slug/time codec, discovery engine, storage layer,
resolution engine and snapshot collector) together with theorems settling the
spec claims.

Modelling conventions:
- Instants are `Int` milliseconds since 2024-01-01T00:00:00 UTC (ISO timestamp
  strings and JS `Date` values in the source become these integers; the spec's
  examples all live in 2024, the "current year" assumed by slug decoding).
- The `Intl.DateTimeFormat` projection to America/New_York is modelled by the
  2024 timezone data: EST = UTC-5h outside the DST window, EDT = UTC-4h inside
  [2024-03-10T07:00Z, 2024-11-03T06:00Z).  The JS runtime's own clock/zone is
  taken to be UTC (the deployment assumption under which the source's
  `new Date(utcDate.toLocaleString(...))` offset trick computes the ET offset
  at the argument instant).
- JS numbers are modelled as exact rationals `ℚ`; `JSON.parse` of a payload is
  modelled by an `Option` field holding the parse result (`none` = throw), and
  SDK calls that may return `null` after retries become `Option` arguments.
-/

/-! ## Slug/Time codec (source: utils/slug.ts) -/

/-- `MONTHS` from slug.ts: lower-case full English month names. -/
def monthNames : List String :=
  ["january", "february", "march", "april", "may", "june",
   "july", "august", "september", "october", "november", "december"]

/-- 2024-03-10T07:00Z (2am EST): America/New_York switches to EDT. -/
def springForwardMs : Int := 5986800000

/-- 2024-11-03T06:00Z (2am EDT): America/New_York switches back to EST. -/
def fallBackMs : Int := 26546400000

/-- UTC-offset (in ms, positive west) of America/New_York at UTC instant `t`,
for the year 2024: 4h during DST, 5h otherwise. -/
def etOffsetMs (t : Int) : Int :=
  if springForwardMs ≤ t ∧ t < fallBackMs then 14400000 else 18000000

/-- Month index (0-based) and day-of-month for a 0-based day-of-year in the
leap year 2024 (month lengths 31,29,31,30,31,30,31,31,30,31,30,31). -/
def monthDay (d : Nat) : Nat × Nat :=
  if d < 31 then (0, d + 1)
  else if d < 60 then (1, d - 30)
  else if d < 91 then (2, d - 59)
  else if d < 121 then (3, d - 90)
  else if d < 152 then (4, d - 120)
  else if d < 182 then (5, d - 151)
  else if d < 213 then (6, d - 181)
  else if d < 244 then (7, d - 212)
  else if d < 274 then (8, d - 243)
  else if d < 305 then (9, d - 273)
  else if d < 335 then (10, d - 304)
  else (11, d - 334)

/-- Days of 2024 that precede month `mi` (0-based), as used by
`Date.UTC(year, monthIndex, day, hour)` when decoding a slug. -/
def daysBeforeMonth (mi : Nat) : Nat :=
  [0, 31, 60, 91, 121, 152, 182, 213, 244, 274, 305, 335].getD mi 366

/-- The fields `getETComponents` extracts with `Intl.DateTimeFormat`
(`month: long, day: numeric, hour: numeric, hour12: true`). -/
structure ETComponents where
  month : String
  day : Nat
  hour12 : Nat
  ampm : String
deriving DecidableEq, Repr

/-- `getETComponents` from slug.ts: project instant `t` to America/New_York
civil time and extract month name, day-of-month, 12-hour clock hour, am/pm. -/
def getETComponents (t : Int) : ETComponents :=
  let civil : Nat := (t - etOffsetMs t).toNat
  let d : Nat := civil / 86400000
  let md := monthDay d
  let h : Nat := civil % 86400000 / 3600000
  { month := monthNames.getD md.1 "",
    day := md.2,
    hour12 := if h % 12 = 0 then 12 else h % 12,
    ampm := if h < 12 then "am" else "pm" }

/-- `generateMarketSlug` from slug.ts:
renders `{assetPrefix}-{month}-{day}-{hour}{ampm}-et`. -/
def generateMarketSlug (assetPrefix : String) (t : Int) : String :=
  let c := getETComponents t
  assetPrefix ++ "-" ++ c.month ++ "-" ++ Nat.repr c.day ++ "-" ++
    Nat.repr c.hour12 ++ c.ampm ++ "-et"

/-- `generateUpcomingMarketSlugs` from slug.ts: truncate `now` down to the top
of the hour on the (UTC) recording clock, then emit slugs for hours
`0 .. hoursAhead-1` ahead. -/
def generateUpcomingMarketSlugs (assetPrefix : String) (hoursAhead : Nat)
    (now : Int) : List String :=
  let currentHour := now - now % 3600000
  (List.range hoursAhead).map
    (fun i => generateMarketSlug assetPrefix (currentHour + (i : Int) * 3600000))

/-- `parseInt(s, 10)` on a regex `\d+` capture: the capture is a nonempty
string of decimal digits, read in base 10. -/
def parseDigits (cs : List Char) : Option Nat :=
  if cs ≠ [] ∧ cs.all (fun c => c.isDigit) then
    some (cs.foldl (fun n c => 10 * n + (c.toNat - 48)) 0)
  else none

/-- Split a character list at every `'-'` (used to realise the anchored regex
`^.+-([a-z]+)-(\d+)-(\d+)(am|pm)-et$` of `parseSlugDate`: the four trailing
capture groups are dash-free, so they are the last four dash-separated
segments of the slug). -/
def splitDash : List Char → List (List Char)
  | [] => [[]]
  | c :: rest =>
    match splitDash rest with
    | [] => [[]]
    | g :: gs => if c = '-' then [] :: g :: gs else (c :: g) :: gs

/-- Split the `(\d+)(am|pm)` segment of a slug into its digit part and its
am/pm suffix. -/
def stripAmPm (cs : List Char) : Option (List Char × String) :=
  match cs.reverse with
  | c2 :: c1 :: rest =>
    if c2 = 'm' ∧ c1 = 'a' then some (rest.reverse, "am")
    else if c2 = 'm' ∧ c1 = 'p' then some (rest.reverse, "pm")
    else none
  | _ => none

/-- `parseSlugDate` from slug.ts: match `{anything}-{month}-{day}-{hour}{ampm}-et`,
convert the 12-hour clock reading to a 24-hour one (12am = 0, 12pm = 12, pm
adds 12 otherwise), build `Date.UTC(currentYear, monthIndex, day, hour)` for
the current year 2024, and add the America/New_York offset *at that UTC-read
civil instant* (the source's `toLocaleString` round-trip under a UTC runtime
clock).  Unknown month names, malformed segments or a missing prefix give
`none`. -/
def parseSlugDate (slug : String) : Option Int :=
  match (splitDash slug.data).reverse with
  | et :: hourAmpm :: dayCs :: monthCs :: preRest =>
    if et = ['e', 't'] ∧ preRest ≠ [] ∧ preRest ≠ [[]] then
      match stripAmPm hourAmpm with
      | none => none
      | some (hourCs, ampm) =>
        match parseDigits hourCs, parseDigits dayCs with
        | some hour0, some day =>
          let monthIndex := monthNames.indexOf (String.mk monthCs)
          if monthIndex < 12 then
            let hour : Nat :=
              if ampm = "pm" ∧ hour0 ≠ 12 then hour0 + 12
              else if ampm = "am" ∧ hour0 = 12 then 0
              else hour0
            let utcGuess : Int :=
              ((daysBeforeMonth monthIndex : Int) + (day : Int) - 1) * 86400000 +
                (hour : Int) * 3600000
            some (utcGuess + etOffsetMs utcGuess)
          else none
        | _, _ => none
    else none
  | _ => none

/-! Derived civil-time views used to state the codec claims. -/

/-- Civil America/New_York time of instant `t`, in ms since 2024-01-01T00:00 ET. -/
def etCivil (t : Int) : Nat := (t - etOffsetMs t).toNat

/-- Hour-of-day (0..23) of instant `t` in America/New_York civil time. -/
def etHour24 (t : Int) : Nat := etCivil t % 86400000 / 3600000

/-- Day-of-month of instant `t` in America/New_York civil time. -/
def etDayOfMonth (t : Int) : Nat := (monthDay (etCivil t / 86400000)).2

/-- Month index (0-based) of instant `t` in America/New_York civil time. -/
def etMonthIndex (t : Int) : Nat := (monthDay (etCivil t / 86400000)).1

/-- The civil hour-start of `t` (ET wall clock, minutes zeroed), reinterpreted
as a UTC reading: this is exactly the `Date.UTC(...)` guess `parseSlugDate`
rebuilds from the slug of `t`. -/
def civilHourStart (t : Int) : Int := ((etCivil t / 3600000) * 3600000 : Nat)

/-- The decode step resolves the correct offset for the slug of `t`: the ET
offset at the civil reading taken as UTC agrees with the ET offset at the
decoded instant.  This fails only in the first hours after a DST transition. -/
def dstStable (t : Int) : Prop :=
  etOffsetMs (civilHourStart t) =
    etOffsetMs (civilHourStart t + etOffsetMs (civilHourStart t))

instance (t : Int) : Decidable (dstStable t) := by
  unfold dstStable; infer_instance

/-! ## Data model (source: models/types.ts) -/

/-- Market outcome: `'UP' | 'DOWN'` (absence is `Option.none`). -/
inductive Outcome
  | UP
  | DOWN
deriving DecidableEq, Repr

/-- The venue catalog record (source `GammaMarket`), restricted to the fields
the engines read.  `clobTokenIds` and `outcomePrices` are JSON strings in the
source; their `JSON.parse`/`parseFloat` results are modelled as `Option`s
(`none` = the parse throws). -/
structure GammaMarket where
  conditionId : String
  question : String
  slug : String
  seriesSlug : String
  eventStartTime : Int
  endDate : Int
  closed : Bool
  clobTokenIds : Option (List String)
  outcomePrices : Option (List ℚ)
  lastTradePrice : ℚ
  volume24hr : ℚ
deriving DecidableEq

/-- A persisted market row (source `HourlyMarket` / table `markets`). -/
structure HourlyMarket where
  id : String
  conditionId : String
  tokenIdUp : String
  tokenIdDown : String
  asset : String
  question : String
  eventStartTime : Int
  hourStart : Int
  hourEnd : Int
  outcome : Option Outcome
  slug : String
  seriesSlug : String
  createdAt : Int
  updatedAt : Int
deriving DecidableEq

/-! ## Storage layer (source: services/storage.ts).  The markets table is
modelled as a list of rows; `id` is the primary key and `condition_id` carries
a UNIQUE constraint. -/

/-- `StorageService.getMarketBySlug`: `SELECT * FROM markets WHERE slug = ?`. -/
def getMarketBySlug (store : List HourlyMarket) (slug : String) :
    Option HourlyMarket :=
  store.find? (fun m => m.slug == slug)

/-- `StorageService.getActiveMarkets`: outcome unset and the current instant
inside `[event_start_time, event_start_time + 1h)`. -/
def getActiveMarkets (store : List HourlyMarket) (now : Int) :
    List HourlyMarket :=
  store.filter (fun m =>
    m.outcome.isNone && decide (m.eventStartTime ≤ now) &&
      decide (now < m.eventStartTime + 3600000))

/-- `StorageService.upsertMarket`: `INSERT OR REPLACE INTO markets ...`.
SQLite's REPLACE conflict resolution deletes every row that collides with the
new row on the primary key `id` or the UNIQUE column `condition_id`, then
inserts; it never raises a constraint error. -/
def upsertMarket (market : HourlyMarket) (store : List HourlyMarket) :
    List HourlyMarket :=
  market :: store.filter (fun x =>
    !(x.id == market.id) && !(x.conditionId == market.conditionId))

/-- `StorageService.updateMarketOutcome`:
`UPDATE markets SET outcome = ?, updated_at = ? WHERE id = ?`. -/
def updateMarketOutcome (store : List HourlyMarket) (id : String)
    (outcome : Outcome) (now : Int) : List HourlyMarket :=
  store.map (fun m =>
    if m.id == id then { m with outcome := some outcome, updatedAt := now }
    else m)

/-- Modelled from the spec: the storage method `getPendingResolutionMarkets`
used by `MarketService.checkResolutions` is not among the repository sources
(only its caller is); per the spec the resolution engine "reads markets whose
outcome is unset and whose `hourEnd` has already passed". -/
def getPendingResolutionMarkets (store : List HourlyMarket) (now : Int) :
    List HourlyMarket :=
  store.filter (fun m => m.outcome.isNone && decide (m.hourEnd < now))

/-! ## Discovery and resolution engines
(source: services/market-discovery.ts and the MarketService variant). -/

/-- `parseTokenIds`: `JSON.parse(gm.clobTokenIds)`, then first element = Up
token, second = Down token; fewer than two elements (or a parse error) gives
`null`. -/
def parseTokenIds (gm : GammaMarket) : Option (String × String) :=
  match gm.clobTokenIds with
  | some (a :: b :: _) => some (a, b)
  | _ => none

/-- `parseFloat(prices[i]) > 0.9` with JS semantics: a missing index is
`undefined`, `parseFloat(undefined)` is `NaN`, and `NaN > 0.9` is false. -/
def priceAbove09 (x : Option ℚ) : Bool :=
  match x with
  | some v => decide (v > 0.9)
  | none => false

/-- `determineOutcome`: parse the settlement price pair (index 0 = Up,
index 1 = Down); Up price above 0.9 gives UP, else Down price above 0.9 gives
DOWN, otherwise (including any parse failure) `null`. -/
def determineOutcome (gm : GammaMarket) : Option Outcome :=
  match gm.outcomePrices with
  | none => none
  | some prices =>
    if priceAbove09 prices[0]? then some Outcome.UP
    else if priceAbove09 prices[1]? then some Outcome.DOWN
    else none

/-- One slug iteration of `discoverMarketsForAsset`: skip if the slug is
already stored, skip if the venue lacks it, warn and skip if the token-id
list does not parse, otherwise build the new market (fresh uuid, timestamps
`now`, `hourStart = eventStartTime`, `hourEnd = endDate`, outcome unset) and
persist it.  Returns (storage, newly created markets, warn log).  The venue
is a deterministic oracle `slug → Option GammaMarket` (`none` = 404 or all
retries failed) and `uuid` supplies the fresh `uuidv4()` per slug. -/
def discoverSlugStep (venue : String → Option GammaMarket)
    (uuid : String → String) (asset : String) (now : Int)
    (st : List HourlyMarket) (slug : String) :
    List HourlyMarket × List HourlyMarket × List String :=
  match getMarketBySlug st slug with
  | some _ => (st, [], [])
  | none =>
    match venue slug with
    | none => (st, [], [])
    | some gm =>
      match parseTokenIds gm with
      | none => (st, [], [slug ++ ": failed to parse token IDs"])
      | some (up, down) =>
        let market : HourlyMarket :=
          { id := uuid slug, conditionId := gm.conditionId, tokenIdUp := up,
            tokenIdDown := down, asset := asset, question := gm.question,
            eventStartTime := gm.eventStartTime,
            hourStart := gm.eventStartTime, hourEnd := gm.endDate,
            outcome := none, slug := gm.slug, seriesSlug := gm.seriesSlug,
            createdAt := now, updatedAt := now }
        (upsertMarket market st, [market], [])

/-- The `for (const slug of slugs)` loop of `discoverMarketsForAsset`; the
per-slug try/catch means every iteration runs regardless of earlier ones. -/
def discoverLoop (venue : String → Option GammaMarket)
    (uuid : String → String) (asset : String) (now : Int) :
    List String → List HourlyMarket →
    List HourlyMarket × List HourlyMarket × List String
  | [], st => (st, [], [])
  | slug :: rest, st =>
    let step := discoverSlugStep venue uuid asset now st slug
    let r := discoverLoop venue uuid asset now rest step.1
    (r.1, step.2.1 ++ r.2.1, step.2.2 ++ r.2.2)

/-- `discoverMarketsForAsset`: iterate over the next 2 upcoming slugs for the
asset's configured slug prefix. -/
def discoverMarketsForAsset (venue : String → Option GammaMarket)
    (uuid : String → String) (asset : String) (slugPre : String) (now : Int)
    (st : List HourlyMarket) :
    List HourlyMarket × List HourlyMarket × List String :=
  discoverLoop venue uuid asset now (generateUpcomingMarketSlugs slugPre 2 now) st

/-- The markets `MarketDiscoveryService.updateMarketOutcomes` examines: it
reads `getActiveMarkets()` and then skips every market with
`new Date(market.hourEnd) > now`. -/
def updateMarketOutcomesExamined (store : List HourlyMarket) (now : Int) :
    List HourlyMarket :=
  (getActiveMarkets store now).filter (fun m => decide (m.hourEnd ≤ now))

/-- The per-market body shared by `checkResolutions` and
`updateMarketOutcomes`: with `gm` the venue record for the market's slug
(`none` = not found), mutate the outcome only when the venue reports the
market closed and `determineOutcome` is decisive. -/
def resolveMarketStep (gm : Option GammaMarket) (m : HourlyMarket)
    (now : Int) : HourlyMarket :=
  match gm with
  | none => m
  | some g =>
    if g.closed then
      match determineOutcome g with
      | some o => { m with outcome := some o, updatedAt := now }
      | none => m
    else m

/-! ## Snapshot collector (source: Scheduler.runFetchJob /
MarketService.fetchActiveMarketSnapshots, PolymarketService.getSpread,
StorageService.insertSnapshot). -/

/-- An order book summary as returned by the CLOB SDK, prices best-first and
already parsed to numbers. -/
structure OrderBookSummary where
  bids : List ℚ
  asks : List ℚ
deriving DecidableEq

/-- `PolymarketService.getSpread`'s result record `{spread, bid, ask}`. -/
structure SpreadData where
  spread : ℚ
  bid : ℚ
  ask : ℚ
deriving DecidableEq

/-- `PolymarketService.getSpread`: from the order book (if the call
succeeded), best bid = first bid price (0 if no bids), best ask = first ask
price (0 if no asks), spread = `bestAsk - bestBid` when both are positive,
else 0. -/
def getSpread (book : Option OrderBookSummary) : Option SpreadData :=
  match book with
  | none => none
  | some b =>
    let bestBid : ℚ := match b.bids with | p :: _ => p | [] => 0
    let bestAsk : ℚ := match b.asks with | p :: _ => p | [] => 0
    some { spread := if bestAsk > 0 ∧ bestBid > 0 then bestAsk - bestBid else 0,
           bid := bestBid, ask := bestAsk }

/-- A snapshot row (source `Snapshot` / table `snapshots`, without the
autoincrement id).  `NOT NULL` columns are `ℚ`, nullable ones `Option ℚ`. -/
structure SnapshotRow where
  marketId : String
  fetchedAt : Int
  minuteOfHour : Int
  upPrice : ℚ
  downPrice : ℚ
  upBid : Option ℚ
  upAsk : Option ℚ
  spread : Option ℚ
  midpoint : Option ℚ
  lastTradePrice : Option ℚ
  volume24h : Option ℚ
deriving DecidableEq

/-- `Math.floor((now.getTime() - marketStart.getTime()) / 60000)`: floor
division, negative values preserved (no clamping). -/
def minuteOfHour (now marketStart : Int) : Int :=
  (now - marketStart).fdiv 60000

/-- The snapshot object `runFetchJob` passes to `insertSnapshot`: prices map
absent entries to 0 (`?? 0`), the nullable fields use `?? null`. -/
def buildSnapshot (m : HourlyMarket) (now : Int) (prices : String → Option ℚ)
    (midpoint : Option ℚ) (spreadData : Option SpreadData)
    (gm : Option GammaMarket) : SnapshotRow :=
  { marketId := m.id, fetchedAt := now,
    minuteOfHour := minuteOfHour now m.eventStartTime,
    upPrice := (prices m.tokenIdUp).getD 0,
    downPrice := (prices m.tokenIdDown).getD 0,
    upBid := spreadData.map (fun s => s.bid),
    upAsk := spreadData.map (fun s => s.ask),
    spread := spreadData.map (fun s => s.spread),
    midpoint := midpoint,
    lastTradePrice := gm.map (fun g => g.lastTradePrice),
    volume24h := gm.map (fun g => g.volume24hr) }

/-- JS `x || 0` on a number: 0 (and NaN) are falsy, everything else is kept. -/
def jsOrZero (v : ℚ) : ℚ := if v = 0 then 0 else v

/-- JS `x || null` on a nullable number: null stays null and a 0 value is
coerced to null. -/
def jsOrNull (x : Option ℚ) : Option ℚ :=
  match x with
  | none => none
  | some v => if v = 0 then none else some v

/-- `StorageService.insertSnapshot`: the row actually bound to the INSERT,
after the `|| 0` / `|| null` coercions applied to every parameter. -/
def insertSnapshot (s : SnapshotRow) : SnapshotRow :=
  { s with
    upPrice := jsOrZero s.upPrice
    downPrice := jsOrZero s.downPrice
    upBid := jsOrNull s.upBid
    upAsk := jsOrNull s.upAsk
    spread := jsOrNull s.spread
    midpoint := jsOrNull s.midpoint
    lastTradePrice := jsOrNull s.lastTradePrice
    volume24h := jsOrNull s.volume24h }

/-- One market's snapshot as persisted by `runFetchJob`: fetch the four data
source reads (prices, midpoint, order book via `getSpread`, gamma record),
assemble the row and store it through `insertSnapshot`. -/
def storedSnapshot (m : HourlyMarket) (now : Int) (prices : String → Option ℚ)
    (midpoint : Option ℚ) (book : Option OrderBookSummary)
    (gm : Option GammaMarket) : SnapshotRow :=
  insertSnapshot (buildSnapshot m now prices midpoint (getSpread book) gm)

/-! ## Theorems -/

/-- Helper: the `|| null` coercion never stores a zero. -/
theorem jsOrNull_ne_some_zero (x : Option ℚ) : jsOrNull x ≠ some 0 := by
  unfold jsOrNull
  cases x with
  | none => simp
  | some v =>
    by_cases hv : v = 0 <;> simp [hv]

/-- C10: `insertSnapshot` coerces every supplied optional value equal to 0 to
NULL (`|| null`), so no stored snapshot carries 0 in a nullable column; in
particular a venue-reported 0 becomes indistinguishable from missing data. -/
theorem insertSnapshot_no_zero_in_nullable (s : SnapshotRow) :
    (insertSnapshot s).upBid ≠ some 0 ∧ (insertSnapshot s).upAsk ≠ some 0 ∧
    (insertSnapshot s).spread ≠ some 0 ∧
    (insertSnapshot s).midpoint ≠ some 0 ∧
    (insertSnapshot s).lastTradePrice ≠ some 0 ∧
    (insertSnapshot s).volume24h ≠ some 0 ∧
    jsOrNull (some 0) = none :=
  ⟨jsOrNull_ne_some_zero _, jsOrNull_ne_some_zero _, jsOrNull_ne_some_zero _,
   jsOrNull_ne_some_zero _, jsOrNull_ne_some_zero _, jsOrNull_ne_some_zero _,
   rfl⟩

/-- Witness for C10 at a concrete snapshot whose every nullable input is 0. -/
theorem insertSnapshot_no_zero_in_nullable_witness :
    (insertSnapshot
      ⟨"m1", 0, 0, 0, 0, some 0, some 0, some 0, some 0, some 0, some 0⟩).spread
      ≠ some 0 :=
  (insertSnapshot_no_zero_in_nullable
    ⟨"m1", 0, 0, 0, 0, some 0, some 0, some 0, some 0, some 0, some 0⟩).2.2.1

/-- C9: values the data source did not return are persisted as NULL, not 0:
a failed order-book call leaves upBid/upAsk/spread NULL, a failed midpoint
or gamma lookup leaves midpoint resp. lastTradePrice/volume24h NULL, while
absent up/down prices default to 0. -/
theorem snapshot_absent_fields_are_null (m : HourlyMarket) (now : Int)
    (prices : String → Option ℚ) (midpoint : Option ℚ)
    (book : Option OrderBookSummary) (gm : Option GammaMarket) :
    (book = none →
      (storedSnapshot m now prices midpoint book gm).upBid = none ∧
      (storedSnapshot m now prices midpoint book gm).upAsk = none ∧
      (storedSnapshot m now prices midpoint book gm).spread = none) ∧
    (midpoint = none →
      (storedSnapshot m now prices midpoint book gm).midpoint = none) ∧
    (gm = none →
      (storedSnapshot m now prices midpoint book gm).lastTradePrice = none ∧
      (storedSnapshot m now prices midpoint book gm).volume24h = none) ∧
    (prices m.tokenIdUp = none →
      (storedSnapshot m now prices midpoint book gm).upPrice = 0) ∧
    (prices m.tokenIdDown = none →
      (storedSnapshot m now prices midpoint book gm).downPrice = 0) := by
  refine ⟨fun hb => ?_, fun hmid => ?_, fun hg => ?_, fun hu => ?_, fun hd => ?_⟩
  · simp [storedSnapshot, insertSnapshot, buildSnapshot, getSpread, jsOrNull, hb]
  · simp [storedSnapshot, insertSnapshot, buildSnapshot, jsOrNull, hmid]
  · simp [storedSnapshot, insertSnapshot, buildSnapshot, jsOrNull, hg]
  · simp [storedSnapshot, insertSnapshot, buildSnapshot, jsOrZero, hu]
  · simp [storedSnapshot, insertSnapshot, buildSnapshot, jsOrZero, hd]

/-- Witness for C9: all four data-source reads fail for a concrete market. -/
theorem snapshot_absent_fields_are_null_witness :
    (storedSnapshot
      ⟨"m1", "c1", "tu", "td", "BTC", "q", 0, 0, 3600000, none, "s", "ss", 0, 0⟩
      60000 (fun _ => none) none none none).upBid = none ∧
    (storedSnapshot
      ⟨"m1", "c1", "tu", "td", "BTC", "q", 0, 0, 3600000, none, "s", "ss", 0, 0⟩
      60000 (fun _ => none) none none none).upPrice = 0 :=
  ⟨((snapshot_absent_fields_are_null
      ⟨"m1", "c1", "tu", "td", "BTC", "q", 0, 0, 3600000, none, "s", "ss", 0, 0⟩
      60000 (fun _ => none) none none none).1 rfl).1,
   (snapshot_absent_fields_are_null
      ⟨"m1", "c1", "tu", "td", "BTC", "q", 0, 0, 3600000, none, "s", "ss", 0, 0⟩
      60000 (fun _ => none) none none none).2.2.2.1 rfl⟩

/-- C8: with `eventStartTime` 47 minutes before the capture instant and an
order book whose best bid is 0.42 and best ask 0.45, the stored row has
`minuteOfHour = 47` and `spread = 0.03` (and the bid/ask are stored as is);
`minuteOfHour` is floor division with no clamping, so a capture before the
event start yields a negative value. -/
theorem runFetchJob_example_47_minutes (m : HourlyMarket) (now : Int)
    (prices : String → Option ℚ) (midpoint : Option ℚ)
    (gm : Option GammaMarket) (bidsTl asksTl : List ℚ)
    (h1 : 2820000 ≤ now - m.eventStartTime)
    (h2 : now - m.eventStartTime < 2880000) :
    (storedSnapshot m now prices midpoint
        (some ⟨(0.42 : ℚ) :: bidsTl, (0.45 : ℚ) :: asksTl⟩) gm).minuteOfHour
      = 47 ∧
    (storedSnapshot m now prices midpoint
        (some ⟨(0.42 : ℚ) :: bidsTl, (0.45 : ℚ) :: asksTl⟩) gm).spread
      = some (0.03 : ℚ) ∧
    (storedSnapshot m now prices midpoint
        (some ⟨(0.42 : ℚ) :: bidsTl, (0.45 : ℚ) :: asksTl⟩) gm).upBid
      = some (0.42 : ℚ) ∧
    (storedSnapshot m now prices midpoint
        (some ⟨(0.42 : ℚ) :: bidsTl, (0.45 : ℚ) :: asksTl⟩) gm).upAsk
      = some (0.45 : ℚ) ∧
    minuteOfHour (m.eventStartTime - 90000) m.eventStartTime = -2 := by
  have hmin : minuteOfHour now m.eventStartTime = 47 := by
    unfold minuteOfHour
    rw [Int.fdiv_eq_ediv _ (by omega)]
    omega
  have hneg : minuteOfHour (m.eventStartTime - 90000) m.eventStartTime = -2 := by
    unfold minuteOfHour
    have : m.eventStartTime - 90000 - m.eventStartTime = -90000 := by ring
    rw [this]
    decide
  refine ⟨?_, ?_, ?_, ?_, hneg⟩ <;>
    simp [storedSnapshot, insertSnapshot, buildSnapshot, getSpread, jsOrNull,
      hmin] <;> norm_num

/-- Witness for C8 at a concrete market and book. -/
theorem runFetchJob_example_47_minutes_witness :
    (2820000 : Int) ≤ 2820000 -
      (HourlyMarket.mk "m1" "c1" "tu" "td" "BTC" "q" 0 0 3600000 none "s" "ss"
        0 0).eventStartTime ∧
    (storedSnapshot
      (HourlyMarket.mk "m1" "c1" "tu" "td" "BTC" "q" 0 0 3600000 none "s" "ss"
        0 0)
      2820000 (fun _ => none) none
      (some ⟨[(0.42 : ℚ)], [(0.45 : ℚ)]⟩) none).minuteOfHour = 47 :=
  ⟨by decide,
   (runFetchJob_example_47_minutes
      (HourlyMarket.mk "m1" "c1" "tu" "td" "BTC" "q" 0 0 3600000 none "s" "ss"
        0 0)
      2820000 (fun _ => none) none none [] []
      (by decide) (by decide)).1⟩

/-- Helper: `priceAbove09` holds exactly on a present price above 0.9. -/
theorem priceAbove09_eq_true_iff (x : Option ℚ) :
    priceAbove09 x = true ↔ ∃ v, x = some v ∧ v > 0.9 := by
  cases x <;> simp [priceAbove09]
/-- C6: the resolution step mutates a market only when the venue reports it
closed and a settlement price exceeds 0.9 (index 0 → UP, index 1 → DOWN); a
closed 0.5/0.5 settlement and an unparseable settlement payload both leave
the market unchanged (outcome still unset, retried next cycle). -/
theorem resolution_only_when_closed_and_decisive (gm : Option GammaMarket)
    (m : HourlyMarket) (now : Int) :
    (resolveMarketStep gm m now ≠ m →
      ∃ g ps, gm = some g ∧ g.closed = true ∧ g.outcomePrices = some ps ∧
        ((∃ u, ps[0]? = some u ∧ u > (0.9 : ℚ) ∧
            (resolveMarketStep gm m now).outcome = some Outcome.UP) ∨
         (∃ w, ps[1]? = some w ∧ w > (0.9 : ℚ) ∧
            (resolveMarketStep gm m now).outcome = some Outcome.DOWN))) ∧
    (∀ g, gm = some g → g.outcomePrices = some [(0.5 : ℚ), (0.5 : ℚ)] →
      resolveMarketStep gm m now = m) ∧
    (∀ g, gm = some g → g.outcomePrices = none →
      resolveMarketStep gm m now = m) := by
  cases gm with
  | none =>
    refine ⟨fun hne => absurd rfl hne, ?_, ?_⟩ <;> intro g hg <;> cases hg
  | some g =>
    refine ⟨?_, ?_, ?_⟩
    · intro hne
      by_cases hc : g.closed = true
      · cases hops : g.outcomePrices with
        | none =>
          exact absurd (by simp [resolveMarketStep, determineOutcome, hc, hops])
            hne
        | some ps =>
          by_cases h0 : priceAbove09 ps[0]? = true
          · obtain ⟨u, hu, hgt⟩ := (priceAbove09_eq_true_iff _).mp h0
            exact ⟨g, ps, rfl, hc, hops, Or.inl ⟨u, hu, hgt, by
              simp [resolveMarketStep, determineOutcome, hc, hops, h0]⟩⟩
          · by_cases h1 : priceAbove09 ps[1]? = true
            · obtain ⟨w, hw, hgt⟩ := (priceAbove09_eq_true_iff _).mp h1
              exact ⟨g, ps, rfl, hc, hops, Or.inr ⟨w, hw, hgt, by
                simp [resolveMarketStep, determineOutcome, hc, hops, h0, h1]⟩⟩
            · exact absurd
                (by simp [resolveMarketStep, determineOutcome, hc, hops, h0, h1])
                hne
      · exact absurd (by simp [resolveMarketStep, hc]) hne
    · intro g' hg
      cases hg
      intro hps
      by_cases hc : g.closed = true
      · simp [resolveMarketStep, determineOutcome, hc, hps, priceAbove09]
        norm_num
      · simp [resolveMarketStep, hc]
    · intro g' hg
      cases hg
      intro hps
      by_cases hc : g.closed = true
      · simp [resolveMarketStep, determineOutcome, hc, hps]
      · simp [resolveMarketStep, hc]

/-- Witness for C6: a closed venue record with 0.5/0.5 settlement leaves a
concrete pending market untouched. -/
theorem resolution_only_when_closed_and_decisive_witness :
    resolveMarketStep
      (some (GammaMarket.mk "c1" "q" "s" "ss" 0 3600000 true
        (some ["tu", "td"]) (some [(0.5 : ℚ), (0.5 : ℚ)]) 0 0))
      (HourlyMarket.mk "m1" "c1" "tu" "td" "BTC" "q" 0 0 3600000 none "s" "ss"
        0 0)
      7200000 =
    HourlyMarket.mk "m1" "c1" "tu" "td" "BTC" "q" 0 0 3600000 none "s" "ss"
      0 0 :=
  (resolution_only_when_closed_and_decisive
    (some (GammaMarket.mk "c1" "q" "s" "ss" 0 3600000 true
      (some ["tu", "td"]) (some [(0.5 : ℚ), (0.5 : ℚ)]) 0 0))
    (HourlyMarket.mk "m1" "c1" "tu" "td" "BTC" "q" 0 0 3600000 none "s" "ss"
      0 0)
    7200000).2.1 _ rfl rfl

/-- C1: under the discovery invariants (`hourStart = eventStartTime`,
`hourEnd = hourStart + 1h`) the market list `updateMarketOutcomes` iterates
over is empty — `getActiveMarkets` keeps only markets still inside their
hour, and the subsequent `hourEnd ≤ now` filter contradicts that — so a
past-due unresolved market is never examined by this entry point, even
though it is exactly what the spec-modelled `getPendingResolutionMarkets`
(the `checkResolutions` source) returns. -/
theorem updateMarketOutcomes_examines_no_past_due_market
    (store : List HourlyMarket) (now : Int)
    (hinv : ∀ m ∈ store,
      m.hourStart = m.eventStartTime ∧ m.hourEnd = m.hourStart + 3600000) :
    updateMarketOutcomesExamined store now = [] ∧
    ∀ m ∈ store, m.outcome = none → m.hourEnd < now →
      m ∈ getPendingResolutionMarkets store now ∧
      m ∉ updateMarketOutcomesExamined store now := by
  have hempty : updateMarketOutcomesExamined store now = [] := by
    unfold updateMarketOutcomesExamined getActiveMarkets
    rw [List.filter_filter]
    apply List.filter_eq_nil_iff.mpr
    intro m hm
    obtain ⟨h1, h2⟩ := hinv m hm
    simp only [Bool.and_eq_true, decide_eq_true_eq, Option.isNone_iff_eq_none]
    intro hcond
    have hlt : now < m.eventStartTime + 3600000 := by tauto
    have hle : m.hourEnd ≤ now := by tauto
    omega
  refine ⟨hempty, fun m hm hout hpast => ⟨?_, ?_⟩⟩
  · unfold getPendingResolutionMarkets
    rw [List.mem_filter]
    exact ⟨hm, by simp [hout, hpast]⟩
  · rw [hempty]
    exact List.not_mem_nil m

/-- Witness for C1: a concrete store holding one unresolved market whose hour
ended an hour ago; `updateMarketOutcomes` examines nothing although the
market is pending resolution. -/
theorem updateMarketOutcomes_examines_no_past_due_market_witness :
    updateMarketOutcomesExamined
      [HourlyMarket.mk "m1" "c1" "tu" "td" "BTC" "q" 0 0 3600000 none "s" "ss"
        0 0] 7200000 = [] ∧
    HourlyMarket.mk "m1" "c1" "tu" "td" "BTC" "q" 0 0 3600000 none "s" "ss"
        0 0 ∈
      getPendingResolutionMarkets
        [HourlyMarket.mk "m1" "c1" "tu" "td" "BTC" "q" 0 0 3600000 none "s"
          "ss" 0 0] 7200000 :=
  ⟨(updateMarketOutcomes_examines_no_past_due_market _ 7200000 (by decide)).1,
   ((updateMarketOutcomes_examines_no_past_due_market _ 7200000 (by decide)).2
      _ (by decide) rfl (by decide)).1⟩

/-- Helper: membership after an upsert comes from the new market or the old
store. -/
theorem mem_upsertMarket {x m : HourlyMarket} {st : List HourlyMarket}
    (h : x ∈ upsertMarket m st) : x = m ∨ x ∈ st := by
  unfold upsertMarket at h
  rcases List.mem_cons.mp h with h | h
  · exact Or.inl h
  · exact Or.inr (List.mem_filter.mp h).1

/-- Helper: every market created by one discovery step copies its window
from the venue record of the processed slug and starts unresolved. -/
theorem discoverSlugStep_newMarkets (venue : String → Option GammaMarket)
    (uuid : String → String) (asset : String) (now : Int)
    (st : List HourlyMarket) (slug : String) :
    ∀ m ∈ (discoverSlugStep venue uuid asset now st slug).2.1,
      ∃ g, venue slug = some g ∧ m.hourStart = g.eventStartTime ∧
        m.hourEnd = g.endDate ∧ m.eventStartTime = g.eventStartTime ∧
        m.outcome = none := by
  cases hfound : getMarketBySlug st slug with
  | some _ => simp [discoverSlugStep, hfound]
  | none =>
    cases hv : venue slug with
    | none => simp [discoverSlugStep, hfound, hv]
    | some g =>
      cases hp : parseTokenIds g with
      | none => simp [discoverSlugStep, hfound, hv, hp]
      | some td =>
        obtain ⟨up, down⟩ := td
        intro m hm
        simp only [discoverSlugStep, hfound, hv, hp, List.mem_singleton] at hm
        subst hm
        exact ⟨g, rfl, rfl, rfl, rfl, rfl⟩

/-- Helper: a discovery step either leaves the store unchanged or upserts one
of its newly created markets. -/
theorem discoverSlugStep_storage (venue : String → Option GammaMarket)
    (uuid : String → String) (asset : String) (now : Int)
    (st : List HourlyMarket) (slug : String) :
    (discoverSlugStep venue uuid asset now st slug).1 = st ∨
    ∃ mk, mk ∈ (discoverSlugStep venue uuid asset now st slug).2.1 ∧
      (discoverSlugStep venue uuid asset now st slug).1 = upsertMarket mk st := by
  cases hfound : getMarketBySlug st slug with
  | some _ => exact Or.inl (by simp [discoverSlugStep, hfound])
  | none =>
    cases hv : venue slug with
    | none => exact Or.inl (by simp [discoverSlugStep, hfound, hv])
    | some g =>
      cases hp : parseTokenIds g with
      | none => exact Or.inl (by simp [discoverSlugStep, hfound, hv, hp])
      | some td =>
        obtain ⟨up, down⟩ := td
        refine Or.inr ⟨HourlyMarket.mk (uuid slug) g.conditionId up down
          asset g.question g.eventStartTime g.eventStartTime g.endDate none
          g.slug g.seriesSlug now now, ?_, ?_⟩ <;>
          simp [discoverSlugStep, hfound, hv, hp]

/-- Helper: every market created along a discovery loop copies its window
from some venue record. -/
theorem discoverLoop_newMarkets (venue : String → Option GammaMarket)
    (uuid : String → String) (asset : String) (now : Int) :
    ∀ (slugs : List String) (st : List HourlyMarket),
      ∀ m ∈ (discoverLoop venue uuid asset now slugs st).2.1,
        ∃ slug g, venue slug = some g ∧ m.hourStart = g.eventStartTime ∧
          m.hourEnd = g.endDate ∧ m.eventStartTime = g.eventStartTime ∧
          m.outcome = none := by
  intro slugs
  induction slugs with
  | nil => intro st m hm; simp [discoverLoop] at hm
  | cons slug rest ih =>
    intro st m hm
    simp only [discoverLoop, List.mem_append] at hm
    rcases hm with hm | hm
    · obtain ⟨g, hg⟩ := discoverSlugStep_newMarkets venue uuid asset now st
        slug m hm
      exact ⟨slug, g, hg⟩
    · exact ih _ m hm

/-- Helper: after a discovery loop the store holds only prior markets and
newly created ones. -/
theorem discoverLoop_storage (venue : String → Option GammaMarket)
    (uuid : String → String) (asset : String) (now : Int) :
    ∀ (slugs : List String) (st : List HourlyMarket),
      ∀ x ∈ (discoverLoop venue uuid asset now slugs st).1,
        x ∈ st ∨ x ∈ (discoverLoop venue uuid asset now slugs st).2.1 := by
  intro slugs
  induction slugs with
  | nil => intro st x hx; exact Or.inl hx
  | cons slug rest ih =>
    intro st x hx
    simp only [discoverLoop] at hx ⊢
    rcases ih _ x hx with hmem | hnew
    · rcases discoverSlugStep_storage venue uuid asset now st slug with
        heq | ⟨mk, hmk, heq⟩
      · rw [heq] at hmem
        exact Or.inl hmem
      · rw [heq] at hmem
        rcases mem_upsertMarket hmem with rfl | hold
        · exact Or.inr (List.mem_append.mpr (Or.inl hmk))
        · exact Or.inl hold
    · exact Or.inr (List.mem_append.mpr (Or.inr hnew))

/-- A venue catalog for the C3 counterexample: the market listed for the
2024-05-31 8pm ET slug reports a two-hour window (`endDate` is
`eventStartTime + 2h`), which discovery copies verbatim. -/
def twoHourVenue : String → Option GammaMarket := fun s =>
  if s = "bitcoin-up-or-down-may-31-8pm-et" then
    some (GammaMarket.mk "c-2h" "q" "bitcoin-up-or-down-may-31-8pm-et" "ss"
      13132800000 13140000000 false (some ["tu", "td"]) none 0 0)
  else none

/-- Counterexample to C3 as stated: at 2024-06-01T00:00Z discovery persists
the venue's market even though its `hourEnd` is two hours after `hourStart`;
the code copies `endDate` without enforcing the one-hour invariant. -/
theorem discover_persists_non_one_hour_market :
    ∃ m ∈ (discoverMarketsForAsset twoHourVenue (fun _ => "id1") "BTC"
        "bitcoin-up-or-down" 13132800000 []).2.1,
      m.hourEnd ≠ m.hourStart + 3600000 := by
  decide

/-- C3 (amended): every market persisted by discovery has
`hourStart = eventStartTime` (the venue's event start) and `hourEnd` equal to
the venue's `endDate`; the one-hour invariant `hourEnd = hourStart + 1h`
therefore holds for all newly persisted markets — and keeps holding for the
whole store — exactly when every venue record satisfies
`endDate = eventStartTime + 1h`. -/
theorem discover_hour_invariant (venue : String → Option GammaMarket)
    (uuid : String → String) (asset : String) (slugPre : String) (now : Int)
    (st : List HourlyMarket)
    (hvenue : ∀ s g, venue s = some g →
      g.endDate = g.eventStartTime + 3600000)
    (hst : ∀ m ∈ st, m.hourEnd = m.hourStart + 3600000) :
    (∀ m ∈ (discoverMarketsForAsset venue uuid asset slugPre now st).2.1,
      m.hourStart = m.eventStartTime ∧ m.hourEnd = m.hourStart + 3600000) ∧
    (∀ m ∈ (discoverMarketsForAsset venue uuid asset slugPre now st).1,
      m.hourEnd = m.hourStart + 3600000) := by
  have hnew : ∀ m ∈ (discoverMarketsForAsset venue uuid asset slugPre now
      st).2.1, m.hourStart = m.eventStartTime ∧
      m.hourEnd = m.hourStart + 3600000 := by
    intro m hm
    obtain ⟨slug, g, hg, h1, h2, h3, -⟩ :=
      discoverLoop_newMarkets venue uuid asset now _ st m hm
    refine ⟨by rw [h1, h3], ?_⟩
    rw [h2, h1, hvenue slug g hg]
  refine ⟨hnew, fun m hm => ?_⟩
  rcases discoverLoop_storage venue uuid asset now _ st m hm with hold | hnew'
  · exact hst m hold
  · exact (hnew m hnew').2

/-- Witness for C3 (amended): a venue whose only record has a one-hour
window; the concrete market it discovers satisfies the invariant. -/
theorem discover_hour_invariant_witness :
    (HourlyMarket.mk "id1" "c-1h" "tu" "td" "BTC" "q" 13132800000 13132800000
        13136400000 none "bitcoin-up-or-down-may-31-8pm-et" "ss" 13132800000
        13132800000).hourStart =
      (HourlyMarket.mk "id1" "c-1h" "tu" "td" "BTC" "q" 13132800000
        13132800000 13136400000 none "bitcoin-up-or-down-may-31-8pm-et" "ss"
        13132800000 13132800000).eventStartTime ∧
    (HourlyMarket.mk "id1" "c-1h" "tu" "td" "BTC" "q" 13132800000 13132800000
        13136400000 none "bitcoin-up-or-down-may-31-8pm-et" "ss" 13132800000
        13132800000).hourEnd =
      (HourlyMarket.mk "id1" "c-1h" "tu" "td" "BTC" "q" 13132800000
        13132800000 13136400000 none "bitcoin-up-or-down-may-31-8pm-et" "ss"
        13132800000 13132800000).hourStart + 3600000 :=
  (discover_hour_invariant
    (fun s =>
      if s = "bitcoin-up-or-down-may-31-8pm-et" then
        some (GammaMarket.mk "c-1h" "q" "bitcoin-up-or-down-may-31-8pm-et"
          "ss" 13132800000 13136400000 false (some ["tu", "td"]) none 0 0)
      else none)
    (fun _ => "id1") "BTC" "bitcoin-up-or-down" 13132800000 []
    (by
      intro s g hg
      by_cases hs : s = "bitcoin-up-or-down-may-31-8pm-et"
      · simp only [hs, if_pos rfl] at hg
        cases hg
        decide
      · simp [hs] at hg)
    (by simp)).1
    (HourlyMarket.mk "id1" "c-1h" "tu" "td" "BTC" "q" 13132800000 13132800000
      13136400000 none "bitcoin-up-or-down-may-31-8pm-et" "ss" 13132800000
      13132800000)
    (by decide)

/-- Counterexample to C4 as stated: persisting a market with an already-used
condition id (`"c"`) raises no error and does not leave the previous record
intact — `INSERT OR REPLACE` silently deletes the old row and keeps the new
one. -/
theorem upsert_duplicate_condition_replaces :
    upsertMarket
      (HourlyMarket.mk "b" "c" "u2" "d2" "BTC" "q2" 0 0 3600000 none "slugB"
        "ss" 5 5)
      [HourlyMarket.mk "a" "c" "u1" "d1" "BTC" "q1" 0 0 3600000 none "slugA"
        "ss" 0 0] =
      [HourlyMarket.mk "b" "c" "u2" "d2" "BTC" "q2" 0 0 3600000 none "slugB"
        "ss" 5 5] ∧
    HourlyMarket.mk "a" "c" "u1" "d1" "BTC" "q1" 0 0 3600000 none "slugA"
        "ss" 0 0 ∉
      upsertMarket
        (HourlyMarket.mk "b" "c" "u2" "d2" "BTC" "q2" 0 0 3600000 none "slugB"
          "ss" 5 5)
        [HourlyMarket.mk "a" "c" "u1" "d1" "BTC" "q1" 0 0 3600000 none "slugA"
          "ss" 0 0] := by
  decide

/-- C4 (amended): `upsertMarket` has `INSERT OR REPLACE` semantics — the new
market is stored, every distinct previously stored market sharing its
condition id (or id) is removed, unrelated markets survive, and no error is
ever surfaced (the operation is total, so the discovery batch continues). -/
theorem upsertMarket_replace_semantics (m : HourlyMarket)
    (st : List HourlyMarket) :
    m ∈ upsertMarket m st ∧
    (∀ x ∈ st, x.conditionId = m.conditionId → x ≠ m →
      x ∉ upsertMarket m st) ∧
    (∀ x ∈ st, x.id ≠ m.id → x.conditionId ≠ m.conditionId →
      x ∈ upsertMarket m st) := by
  refine ⟨List.mem_cons_self _ _, ?_, ?_⟩
  · intro x hx hcond hne hmem
    unfold upsertMarket at hmem
    rcases List.mem_cons.mp hmem with h | h
    · exact hne h
    · have hpred := (List.mem_filter.mp h).2
      simp only [Bool.and_eq_true, Bool.not_eq_true', beq_eq_false_iff_ne,
        ne_eq] at hpred
      exact hpred.2 hcond
  · intro x hx hid hcond
    unfold upsertMarket
    refine List.mem_cons_of_mem _ (List.mem_filter.mpr ⟨hx, ?_⟩)
    simp [hid, hcond]

/-- Witness for C4 (amended) at two concrete markets sharing a condition id. -/
theorem upsertMarket_replace_semantics_witness :
    HourlyMarket.mk "a" "c" "u1" "d1" "BTC" "q1" 0 0 3600000 none "slugA"
        "ss" 0 0 ∉
      upsertMarket
        (HourlyMarket.mk "b" "c" "u2" "d2" "BTC" "q2" 0 0 3600000 none "slugB"
          "ss" 5 5)
        [HourlyMarket.mk "a" "c" "u1" "d1" "BTC" "q1" 0 0 3600000 none "slugA"
          "ss" 0 0] :=
  (upsertMarket_replace_semantics
    (HourlyMarket.mk "b" "c" "u2" "d2" "BTC" "q2" 0 0 3600000 none "slugB"
      "ss" 5 5)
    [HourlyMarket.mk "a" "c" "u1" "d1" "BTC" "q1" 0 0 3600000 none "slugA"
      "ss" 0 0]).2.1 _ (by decide) rfl (by decide)

/-- C5: a slug whose venue record has fewer than two token ids persists no
market, leaves the store untouched, emits exactly one warning, and the
remaining slugs of the batch are processed exactly as they would have been
without it. -/
theorem discovery_malformed_token_list (venue : String → Option GammaMarket)
    (uuid : String → String) (asset : String) (now : Int)
    (st : List HourlyMarket) (slug : String) (rest : List String)
    (gm : GammaMarket) (ids : List String)
    (hnot : getMarketBySlug st slug = none)
    (hv : venue slug = some gm)
    (hids : gm.clobTokenIds = some ids)
    (hlen : ids.length < 2) :
    (discoverLoop venue uuid asset now (slug :: rest) st).1 =
      (discoverLoop venue uuid asset now rest st).1 ∧
    (discoverLoop venue uuid asset now (slug :: rest) st).2.1 =
      (discoverLoop venue uuid asset now rest st).2.1 ∧
    (discoverLoop venue uuid asset now (slug :: rest) st).2.2 =
      (slug ++ ": failed to parse token IDs") ::
        (discoverLoop venue uuid asset now rest st).2.2 := by
  have hp : parseTokenIds gm = none := by
    unfold parseTokenIds
    rw [hids]
    cases ids with
    | nil => rfl
    | cons a tl =>
      cases tl with
      | nil => rfl
      | cons b tl2 =>
        simp only [List.length_cons] at hlen
        omega
  have hstep : discoverSlugStep venue uuid asset now st slug =
      (st, [], [slug ++ ": failed to parse token IDs"]) := by
    simp [discoverSlugStep, hnot, hv, hp]
  refine ⟨?_, ?_, ?_⟩ <;> simp [discoverLoop, hstep]

/-- Witness for C5: a concrete venue returning a single-token market for the
first of two slugs. -/
theorem discovery_malformed_token_list_witness :
    (discoverLoop
      (fun s =>
        if s = "s1" then
          some (GammaMarket.mk "cW" "q" "s1" "ss" 0 3600000 false
            (some ["only"]) none 0 0)
        else none)
      (fun _ => "idW") "BTC" 0 ["s1", "s2"] []).2.2 =
      ("s1" ++ ": failed to parse token IDs") ::
        (discoverLoop
          (fun s =>
            if s = "s1" then
              some (GammaMarket.mk "cW" "q" "s1" "ss" 0 3600000 false
                (some ["only"]) none 0 0)
            else none)
          (fun _ => "idW") "BTC" 0 ["s2"] []).2.2 :=
  (discovery_malformed_token_list
    (fun s =>
      if s = "s1" then
        some (GammaMarket.mk "cW" "q" "s1" "ss" 0 3600000 false
          (some ["only"]) none 0 0)
      else none)
    (fun _ => "idW") "BTC" 0 [] "s1" ["s2"]
    (GammaMarket.mk "cW" "q" "s1" "ss" 0 3600000 false (some ["only"]) none
      0 0) ["only"]
    rfl (by decide) rfl (by decide)).2.2

/-- Counterexample to C7 as stated: at 2024-11-03T05:30Z (1:30am EDT, the
fall-back night) the first two of the three upcoming slugs coincide — the
repeated civil hour 1am produces the same slug for two consecutive UTC
hours — so the slugs are neither pairwise distinct nor strictly increasing. -/
theorem upcoming_slugs_fall_back_duplicate :
    (generateUpcomingMarketSlugs "bitcoin-up-or-down" 3 26544600000).length
      = 3 ∧
    (generateUpcomingMarketSlugs "bitcoin-up-or-down" 3 26544600000)[0]? =
      some "bitcoin-up-or-down-november-3-1am-et" ∧
    (generateUpcomingMarketSlugs "bitcoin-up-or-down" 3 26544600000)[0]? =
      (generateUpcomingMarketSlugs "bitcoin-up-or-down" 3 26544600000)[1]? ∧
    ¬ (generateUpcomingMarketSlugs "bitcoin-up-or-down" 3 26544600000).Nodup
    := by
  decide

/-- C7 (amended): `generateUpcomingMarketSlugs(p, 3)` yields exactly 3 slugs,
the i-th encoding the instant `trunc(now) + i hours` where `trunc` zeroes
minutes/seconds on the recording clock (so the underlying instants are
consecutive hours, strictly increasing); the slug *strings* themselves are
not guaranteed pairwise distinct (see the fall-back counterexample). -/
theorem generateUpcomingMarketSlugs_consecutive_hours (assetPrefix : String)
    (now : Int) :
    (generateUpcomingMarketSlugs assetPrefix 3 now).length = 3 ∧
    (∀ i : Nat, i < 3 →
      (generateUpcomingMarketSlugs assetPrefix 3 now)[i]? =
        some (generateMarketSlug assetPrefix
          (now - now % 3600000 + (i : Int) * 3600000))) ∧
    (now - now % 3600000) % 3600000 = 0 ∧
    now - now % 3600000 ≤ now ∧
    now < now - now % 3600000 + 3600000 := by
  refine ⟨rfl, ?_, by omega, by omega, by omega⟩
  intro i hi
  interval_cases i <;>
    simp [generateUpcomingMarketSlugs, List.range_succ]

/-- Witness for C7 at a concrete instant (2024-06-01T00:00Z). -/
theorem generateUpcomingMarketSlugs_consecutive_hours_witness :
    (generateUpcomingMarketSlugs "btc" 3 13132800000).length = 3 ∧
    (generateUpcomingMarketSlugs "btc" 3 13132800000)[1]? =
      some (generateMarketSlug "btc"
        (13132800000 - (13132800000 : Int) % 3600000 +
          (1 : Nat) * 3600000)) :=
  ⟨(generateUpcomingMarketSlugs_consecutive_hours "btc" 13132800000).1,
   (generateUpcomingMarketSlugs_consecutive_hours "btc" 13132800000).2.1 1
     (by decide)⟩

/-- Helper: splitting never yields an empty group list. -/
theorem splitDash_ne_nil (cs : List Char) : splitDash cs ≠ [] := by
  cases cs with
  | nil => simp [splitDash]
  | cons c rest =>
    unfold splitDash
    cases h : splitDash rest with
    | nil => simp
    | cons g gs => by_cases hc : c = '-' <;> simp [hc]

/-- Helper: splitting distributes over a dash. -/
theorem splitDash_append (xs ys : List Char) :
    splitDash (xs ++ '-' :: ys) = splitDash xs ++ splitDash ys := by
  induction xs with
  | nil =>
    cases h : splitDash ys with
    | nil => exact absurd h (splitDash_ne_nil ys)
    | cons g gs => simp [splitDash, h]
  | cons c rest ih =>
    cases hrest : splitDash rest with
    | nil => exact absurd hrest (splitDash_ne_nil rest)
    | cons g gs =>
      by_cases hc : c = '-' <;>
        simp [splitDash, ih, hrest, hc]

/-- Helper: a dash-free chunk is one group. -/
theorem splitDash_no_dash (cs : List Char) (h : '-' ∉ cs) :
    splitDash cs = [cs] := by
  induction cs with
  | nil => rfl
  | cons c rest ih =>
    have hc : ¬(c = '-') := fun hh => h (hh ▸ List.mem_cons_self c rest)
    have hrest : splitDash rest = [rest] :=
      ih (fun hm => h (List.mem_cons_of_mem _ hm))
    simp [splitDash, hrest, hc]

/-- Helper: the split is `[[]]` exactly for the empty input. -/
theorem splitDash_eq_nil_group (cs : List Char) :
    splitDash cs = [[]] ↔ cs = [] := by
  constructor
  · intro h
    cases cs with
    | nil => rfl
    | cons c rest =>
      exfalso
      cases hrest : splitDash rest with
      | nil => exact splitDash_ne_nil rest hrest
      | cons g gs =>
        unfold splitDash at h
        rw [hrest] at h
        by_cases hc : c = '-' <;> simp [hc] at h
  · rintro rfl
    rfl

set_option maxRecDepth 4096 in
/-- Helper: day-of-year inversion for the 2024 calendar table. -/
theorem monthDay_spec : ∀ d, d < 366 →
    (monthDay d).1 < 12 ∧ 1 ≤ (monthDay d).2 ∧ (monthDay d).2 ≤ 31 ∧
    daysBeforeMonth (monthDay d).1 + (monthDay d).2 = d + 1 := by
  decide

/-- Helper: month-name table facts, one per valid index. -/
theorem monthNames_facts : ∀ mi, mi < 12 →
    (monthNames.getD mi "").data ≠ [] ∧
    '-' ∉ (monthNames.getD mi "").data ∧
    monthNames.indexOf (monthNames.getD mi "") = mi := by
  decide

/-- Helper: decimal rendering of the small numerals appearing in slugs
round-trips through `parseDigits` and is dash-free. -/
theorem repr_digit_facts : ∀ n, n < 32 →
    (Nat.repr n).data ≠ [] ∧
    '-' ∉ (Nat.repr n).data ∧
    parseDigits (Nat.repr n).data = some n := by
  decide

/-- Helper: decoding a canonically rendered slug
`{pre}-{month}-{day}-{hour12}{ampm}-et` recovers the encoded components and
returns the `Date.UTC` guess plus the ET offset taken at that guess. -/
theorem parseSlugDate_canonical (pre : String) (mi dom h12 : Nat)
    (ampm : String)
    (hpre : pre ≠ "") (hmi : mi < 12)
    (hdom1 : 1 ≤ dom) (hdom31 : dom ≤ 31)
    (hh1 : 1 ≤ h12) (hh12 : h12 ≤ 12)
    (hampm : ampm = "am" ∨ ampm = "pm") :
    parseSlugDate (pre ++ "-" ++ monthNames.getD mi "" ++ "-" ++
        Nat.repr dom ++ "-" ++ Nat.repr h12 ++ ampm ++ "-et") =
      some
        (((daysBeforeMonth mi : Int) + (dom : Int) - 1) * 86400000 +
            ((if ampm = "pm" ∧ h12 ≠ 12 then h12 + 12
              else if ampm = "am" ∧ h12 = 12 then 0 else h12 : Nat) : Int) *
              3600000 +
          etOffsetMs
            (((daysBeforeMonth mi : Int) + (dom : Int) - 1) * 86400000 +
              ((if ampm = "pm" ∧ h12 ≠ 12 then h12 + 12
                else if ampm = "am" ∧ h12 = 12 then 0 else h12 : Nat) : Int) *
                3600000)) := by
  obtain ⟨hnName, hNoDashName, hIdx⟩ := monthNames_facts mi hmi
  obtain ⟨hnDay, hNoDashDay, hParseDay⟩ := repr_digit_facts dom (by omega)
  obtain ⟨hnHour, hNoDashHour, hParseHour⟩ := repr_digit_facts h12 (by omega)
  have hNoDashAmpm : '-' ∉ ampm.data := by
    rcases hampm with h | h <;> subst h <;> decide
  have hNoDashHourAmpm : '-' ∉ (Nat.repr h12).data ++ ampm.data := by
    intro hmem
    rcases List.mem_append.mp hmem with h | h
    · exact hNoDashHour h
    · exact hNoDashAmpm h
  have hdata : (pre ++ "-" ++ monthNames.getD mi "" ++ "-" ++ Nat.repr dom ++
      "-" ++ Nat.repr h12 ++ ampm ++ "-et").data =
      pre.data ++ '-' :: ((monthNames.getD mi "").data ++ '-' ::
        ((Nat.repr dom).data ++ '-' ::
          ((Nat.repr h12).data ++ (ampm.data ++ '-' :: ['e', 't'])))) := by
    simp only [String.data_append, List.append_assoc,
      show ("-" : String).data = ['-'] from rfl,
      show ("-et" : String).data = ['-', 'e', 't'] from rfl]
    simp
  have hsplit : splitDash (pre ++ "-" ++ monthNames.getD mi "" ++ "-" ++
      Nat.repr dom ++ "-" ++ Nat.repr h12 ++ ampm ++ "-et").data =
      splitDash pre.data ++ [(monthNames.getD mi "").data,
        (Nat.repr dom).data, (Nat.repr h12).data ++ ampm.data, ['e', 't']] := by
    rw [hdata, splitDash_append, splitDash_append, splitDash_append,
      ← List.append_assoc ((Nat.repr h12).data) ampm.data, splitDash_append,
      splitDash_no_dash _ hNoDashName, splitDash_no_dash _ hNoDashDay,
      splitDash_no_dash _ hNoDashHourAmpm,
      show splitDash ['e', 't'] = [['e', 't']] from rfl]
    simp
  have hrev : (splitDash (pre ++ "-" ++ monthNames.getD mi "" ++ "-" ++
      Nat.repr dom ++ "-" ++ Nat.repr h12 ++ ampm ++ "-et").data).reverse =
      ['e', 't'] :: ((Nat.repr h12).data ++ ampm.data) ::
        (Nat.repr dom).data :: (monthNames.getD mi "").data ::
        (splitDash pre.data).reverse := by
    rw [hsplit]
    simp
  have hpr1 : (splitDash pre.data).reverse ≠ [] := by
    simp [splitDash_ne_nil]
  have hpr2 : (splitDash pre.data).reverse ≠ [[]] := by
    intro h
    have h' : splitDash pre.data = [[]] := by
      have := congrArg List.reverse h
      simpa using this
    exact hpre (String.ext ((splitDash_eq_nil_group _).mp h'))
  have hstrip : stripAmPm ((Nat.repr h12).data ++ ampm.data) =
      some ((Nat.repr h12).data, ampm) := by
    rcases hampm with h | h <;> subst h <;>
      · unfold stripAmPm
        rw [List.reverse_append]
        simp
  have hmk : String.mk (monthNames.getD mi "").data = monthNames.getD mi "" :=
    String.ext rfl
  unfold parseSlugDate
  rw [hrev]
  simp only [hstrip, hParseHour, hParseDay, hmk, hIdx, if_pos hmi]
  simp [hpr1, hpr2]
/-- C2 (amended): for every nonempty prefix and every 2024 instant at which
the decode step resolves the DST offset consistently (`dstStable`, which
holds everywhere except the first hours after a DST transition), decoding the
generated slug succeeds and recovers the same America/New_York hour-of-day,
day-of-month and month; in particular this covers the spec's example
2024-03-10 07:30 ET on the spring-forward day. -/
theorem parseSlugDate_generateMarketSlug_roundtrip (assetPrefix : String)
    (t : Int) (hp : assetPrefix ≠ "")
    (hlo : 18000000 ≤ t) (hhi : t < 31640400000) (hdst : dstStable t) :
    parseSlugDate (generateMarketSlug assetPrefix t) =
      some (civilHourStart t + etOffsetMs (civilHourStart t)) ∧
    etHour24 (civilHourStart t + etOffsetMs (civilHourStart t)) =
      etHour24 t ∧
    etDayOfMonth (civilHourStart t + etOffsetMs (civilHourStart t)) =
      etDayOfMonth t ∧
    etMonthIndex (civilHourStart t + etOffsetMs (civilHourStart t)) =
      etMonthIndex t := by
  have hH : etHour24 t = etCivil t % 86400000 / 3600000 := rfl
  have hMI : etMonthIndex t = (monthDay (etCivil t / 86400000)).1 := rfl
  have hDM : etDayOfMonth t = (monthDay (etCivil t / 86400000)).2 := rfl
  have hCHS : civilHourStart t = ((etCivil t / 3600000) * 3600000 : Nat) := rfl
  have hcivlt : etCivil t < 31622400000 := by
    unfold etCivil etOffsetMs springForwardMs fallBackMs
    split <;> omega
  have hd366 : etCivil t / 86400000 < 366 := by omega
  have hh24 : etHour24 t < 24 := by rw [hH]; omega
  obtain ⟨hmi, hdom1, hdom31, hsum⟩ :=
    monthDay_spec (etCivil t / 86400000) hd366
  rw [← hMI] at hmi
  rw [← hDM] at hdom1 hdom31
  have hh121 : 1 ≤ (if etHour24 t % 12 = 0 then 12 else etHour24 t % 12) := by
    split <;> omega
  have hh1212 : (if etHour24 t % 12 = 0 then 12 else etHour24 t % 12) ≤ 12 :=
    by split <;> omega
  have hampm : (if etHour24 t < 12 then "am" else "pm") = "am" ∨
      (if etHour24 t < 12 then "am" else "pm") = "pm" := by
    split <;> simp
  have hparse := parseSlugDate_canonical assetPrefix (etMonthIndex t)
    (etDayOfMonth t) (if etHour24 t % 12 = 0 then 12 else etHour24 t % 12)
    (if etHour24 t < 12 then "am" else "pm")
    hp hmi hdom1 hdom31 hh121 hh1212 hampm
  have hslug : generateMarketSlug assetPrefix t =
      assetPrefix ++ "-" ++ monthNames.getD (etMonthIndex t) "" ++ "-" ++
        Nat.repr (etDayOfMonth t) ++ "-" ++
        Nat.repr (if etHour24 t % 12 = 0 then 12 else etHour24 t % 12) ++
        (if etHour24 t < 12 then "am" else "pm") ++ "-et" := rfl
  have hne12 : etHour24 t % 12 ≠ 12 := by omega
  have hhour : (if (if etHour24 t < 12 then "am" else "pm") = "pm" ∧
      (if etHour24 t % 12 = 0 then 12 else etHour24 t % 12) ≠ 12 then
        (if etHour24 t % 12 = 0 then 12 else etHour24 t % 12) + 12
      else if (if etHour24 t < 12 then "am" else "pm") = "am" ∧
          (if etHour24 t % 12 = 0 then 12 else etHour24 t % 12) = 12 then 0
      else (if etHour24 t % 12 = 0 then 12 else etHour24 t % 12)) =
      etHour24 t := by
    by_cases h0 : etHour24 t < 12 <;> by_cases hz : etHour24 t % 12 = 0 <;>
      simp [h0, hz, hne12] <;> omega
  rw [hhour] at hparse
  have hG : ((daysBeforeMonth (etMonthIndex t) : Int) +
      (etDayOfMonth t : Int) - 1) * 86400000 +
      ((etHour24 t : Nat) : Int) * 3600000 = civilHourStart t := by
    rw [hMI, hDM, hH, hCHS]
    omega
  rw [hG] at hparse
  have hdst' : etOffsetMs (civilHourStart t) =
      etOffsetMs (civilHourStart t + etOffsetMs (civilHourStart t)) := hdst
  have hcivT : etCivil (civilHourStart t + etOffsetMs (civilHourStart t)) =
      (etCivil t / 3600000) * 3600000 := by
    have hTdef : etCivil (civilHourStart t + etOffsetMs (civilHourStart t)) =
        ((civilHourStart t + etOffsetMs (civilHourStart t)) -
          etOffsetMs (civilHourStart t +
            etOffsetMs (civilHourStart t))).toNat := rfl
    rw [hTdef, ← hdst', hCHS]
    omega
  have hHT : etHour24 (civilHourStart t + etOffsetMs (civilHourStart t)) =
      etCivil (civilHourStart t + etOffsetMs (civilHourStart t)) %
        86400000 / 3600000 := rfl
  have hDMT : etDayOfMonth (civilHourStart t + etOffsetMs (civilHourStart t))
      = (monthDay (etCivil (civilHourStart t +
          etOffsetMs (civilHourStart t)) / 86400000)).2 := rfl
  have hMIT : etMonthIndex (civilHourStart t + etOffsetMs (civilHourStart t))
      = (monthDay (etCivil (civilHourStart t +
          etOffsetMs (civilHourStart t)) / 86400000)).1 := rfl
  have harg : (etCivil t / 3600000) * 3600000 / 86400000 =
      etCivil t / 86400000 := by omega
  refine ⟨hslug ▸ hparse, ?_, ?_, ?_⟩
  · rw [hHT, hcivT, hH]
    omega
  · rw [hDMT, hcivT, harg, hDM]
  · rw [hMIT, hcivT, harg, hMI]

/-- Counterexample to C2 as stated: 2024-03-10T07:30Z is 3:30am EDT (just
after the spring-forward jump), its slug ends in `march-10-3am-et`, but
decoding that slug lands at 2024-03-10T08:00Z, whose ET hour-of-day is 4,
not 3 — the decoder reads the civil time as UTC and picks up the pre-DST
offset. -/
theorem slug_roundtrip_dst_counterexample :
    generateMarketSlug "bitcoin-up-or-down" 5988600000 =
      "bitcoin-up-or-down-march-10-3am-et" ∧
    etHour24 5988600000 = 3 ∧
    parseSlugDate "bitcoin-up-or-down-march-10-3am-et" = some 5990400000 ∧
    etHour24 5990400000 = 4 := by
  decide

/-- Witness for C2 (amended) at the spec's example instant
2024-03-10 07:30 ET (= 2024-03-10T11:30Z): the round trip recovers hour 7 of
March 10. -/
theorem slug_roundtrip_witness :
    (parseSlugDate (generateMarketSlug "bitcoin-up-or-down" 6003000000) =
      some (civilHourStart 6003000000 +
        etOffsetMs (civilHourStart 6003000000)) ∧
     etHour24 (civilHourStart 6003000000 +
        etOffsetMs (civilHourStart 6003000000)) = etHour24 6003000000 ∧
     etDayOfMonth (civilHourStart 6003000000 +
        etOffsetMs (civilHourStart 6003000000)) = etDayOfMonth 6003000000 ∧
     etMonthIndex (civilHourStart 6003000000 +
        etOffsetMs (civilHourStart 6003000000)) = etMonthIndex 6003000000) ∧
    etHour24 6003000000 = 7 ∧ etDayOfMonth 6003000000 = 10 ∧
    generateMarketSlug "bitcoin-up-or-down" 6003000000 =
      "bitcoin-up-or-down-march-10-7am-et" :=
  ⟨parseSlugDate_generateMarketSlug_roundtrip "bitcoin-up-or-down" 6003000000
    (by decide) (by decide) (by decide) (by decide),
   by decide, by decide, by decide⟩
